import Mathlib

/-!
Shallow embedding of the `langedge` client library (Python) in Lean 4.

Source files embedded:
  * `langedge/models/__init__.py`   — the closed enumerations of the wire API
  * `langedge/models/request.py`    — `DictMixin.to_dict`, request `Job`
  * `langedge/models/response.py`   — the response decoders
  * `langedge/credential.py`        — `Credential.sign` (HMAC-SHA1 signing)
  * `langedge/api.py`               — `dump_json`, `Job._order`, `Job.batch_order`

Conventions of the embedding:
  * Python `dict`s are association lists `List (String × _)` in insertion
    order (CPython dicts preserve insertion order; keys are unique).
  * Fallible Python code (KeyError / TypeError / ValueError) is modelled with
    `Except String`.
  * The current clock (`time.time()`) is passed explicitly as a `Nat` of unix
    seconds, matching `int(time.time())`.
  * Bytes (`bytes`) are `List Nat`, each element < 256.
  * `datetime.datetime.fromtimestamp(x)` is modelled by the POSIX timestamp
    it wraps; Python `float` coercion on decimal strings is modelled by the
    exact decimal value (a mantissa/scale pair), not an IEEE approximation.
-/

namespace Langedge

/-! ## Enumerations (`langedge/models/__init__.py`)

`Currency = enum.Enum("Currency", ["USD", "JPY"])` and so on.  Each enum value
has a symbolic `name` (used on the wire) and a 1-based ordinal `value`.
-/

inductive Currency where
  | USD
  | JPY
deriving DecidableEq, Repr

inductive JobType where
  | text
deriving DecidableEq, Repr

inductive LanguageCode where
  | en
  | ja
deriving DecidableEq, Repr

inductive Tier where
  | standard
  | pro
deriving DecidableEq, Repr

inductive JobStatus where
  | available
  | reviewable
deriving DecidableEq, Repr

def Currency.name : Currency → String
  | .USD => "USD"
  | .JPY => "JPY"

def JobType.name : JobType → String
  | .text => "text"

def LanguageCode.name : LanguageCode → String
  | .en => "en"
  | .ja => "ja"

def Tier.name : Tier → String
  | .standard => "standard"
  | .pro => "pro"

def JobStatus.name : JobStatus → String
  | .available => "available"
  | .reviewable => "reviewable"

/-- A Python enum member appearing in a request payload (the values stored on
a request `Job`).  `EnumEncoder` serializes any of these by `.name`. -/
inductive ReqEnum where
  | jobType (v : JobType)
  | lang (v : LanguageCode)
  | tier (v : Tier)
deriving DecidableEq, Repr

def ReqEnum.name : ReqEnum → String
  | .jobType v => v.name
  | .lang v => v.name
  | .tier v => v.name

/-- The 1-based ordinal of the member (`enum.Enum` auto values). -/
def ReqEnum.value : ReqEnum → Nat
  | .jobType .text => 1
  | .lang .en => 1
  | .lang .ja => 2
  | .tier .standard => 1
  | .tier .pro => 2

/-! ## Request-side Python values and the JSON dump (`api.py`)

`dump_json(source) = json.dumps(source, cls=EnumEncoder, separators=(',', ':'))`.
`JVal` is the type of Python values that can appear in a request payload:
JSON scalars, enum members (handled by `EnumEncoder.default`, which returns
`value.name`), and nested dicts.
-/

inductive JVal where
  | null
  | bool (b : Bool)
  | int (n : Int)
  | str (s : String)
  | enum (e : ReqEnum)
  | obj (kvs : List (String × JVal))

/-- `value is None` (identity test against the `None` singleton). -/
def JVal.isNull : JVal → Bool
  | .null => true
  | _ => false

/-- The sixteen lowercase hexadecimal digit characters. -/
def hexDigits : List Char := "0123456789abcdef".data

def hexDigit (n : Nat) : Char := hexDigits.getD n '0'

/-- The four lowercase hex digits used inside a \uXXXX escape. -/
def hex4 (n : Nat) : String :=
  String.mk [hexDigit (n / 4096 % 16), hexDigit (n / 256 % 16),
             hexDigit (n / 16 % 16), hexDigit (n % 16)]

/-- The `\uXXXX` escape used by `json.dumps` with `ensure_ascii=True`
(a surrogate pair for code points above U+FFFF). -/
def escapeU (n : Nat) : String :=
  if n < 65536 then
    "\\u" ++ hex4 n
  else
    let m := n - 65536
    "\\u" ++ hex4 (55296 + m / 1024) ++ "\\u" ++ hex4 (56320 + m % 1024)

/-- Per-character escaping of the CPython `json` ASCII string encoder:
quote and backslash get a backslash escape, the named control characters get
their shorthand, every other character outside `0x20 ..= 0x7e` becomes
`\uXXXX`, and the rest pass through. -/
def escapeChar (c : Char) : String :=
  if c = '"' then "\\\""
  else if c = '\\' then "\\\\"
  else if c = '\n' then "\\n"
  else if c = '\t' then "\\t"
  else if c = '\r' then "\\r"
  else if c.toNat = 8 then "\\b"
  else if c.toNat = 12 then "\\f"
  else if c.toNat < 32 ∨ 126 < c.toNat then escapeU c.toNat
  else String.singleton c

/-- JSON encoding of a Python `str`: quotes around the escaped characters. -/
def encodeStr (s : String) : String :=
  "\"" ++ String.join (s.data.map escapeChar) ++ "\""

/-- `json.dumps(value, cls=EnumEncoder, separators=(',', ':'))` on a single
value: compact separators (a bare comma between items, a bare colon after
keys, never a space), enum members rendered by `EnumEncoder` as `.name`. -/
def dumpVal : JVal → String
  | .null => "null"
  | .bool b => if b then "true" else "false"
  | .int n => toString n
  | .str s => encodeStr s
  | .enum e => encodeStr e.name
  | .obj kvs =>
      "\x7b" ++ String.intercalate ","
        (kvs.attach.map fun kv => encodeStr kv.1.1 ++ ":" ++ dumpVal kv.1.2) ++ "\x7d"
termination_by v => sizeOf v
decreasing_by
  simp only [JVal.obj.sizeOf_spec]
  have h1 := List.sizeOf_lt_of_mem kv.2
  have h2 : sizeOf kv.1.2 < sizeOf kv.1 := by
    obtain ⟨a, b⟩ := kv.1
    simp only [Prod.mk.sizeOf_spec]
    omega
  omega

/-- `dump_json` from `api.py`: the source at the call sites is always a dict,
so the embedding takes the entries of the dict. -/
def dump_json (source : List (String × JVal)) : String :=
  dumpVal (.obj source)

/-! ## Request model (`langedge/models/request.py`) -/

namespace Request

/-- The request `Job`.  Optional fields default to `None` (here `none`);
`force` and `use_preferred` are booleans defaulting to `False`. -/
structure Job where
  job_type : JobType
  slug : String
  body_src : String
  lc_src : LanguageCode
  lc_tgt : LanguageCode
  tier : Tier
  auto_approve : Bool
  comment : Option String := none
  callback_url : Option String := none
  custom_data : Option String := none
  force : Bool := false
  use_preferred : Bool := false
deriving DecidableEq, Repr

/-- An optional string as the Python attribute value: `None` or the string. -/
def optVal : Option String → JVal
  | none => .null
  | some s => .str s

/-- `self.__dict__` of a request `Job`: the attributes in the insertion order
of the assignments in `__init__`. -/
def Job.dict (j : Job) : List (String × JVal) :=
  [("job_type", .enum (.jobType j.job_type)),
   ("slug", .str j.slug),
   ("body_src", .str j.body_src),
   ("lc_src", .enum (.lang j.lc_src)),
   ("lc_tgt", .enum (.lang j.lc_tgt)),
   ("tier", .enum (.tier j.tier)),
   ("auto_approve", .bool j.auto_approve),
   ("comment", optVal j.comment),
   ("callback_url", optVal j.callback_url),
   ("custom_data", optVal j.custom_data),
   ("force", .bool j.force),
   ("use_preferred", .bool j.use_preferred)]

end Request

/-- `DictMixin.to_dict`: keep the items of `self.__dict__` whose value
`is not None`. -/
def DictMixin.to_dict (d : List (String × JVal)) : List (String × JVal) :=
  d.filter fun kv => !kv.2.isNull

/-- `Job.to_dict` for a request job (via `DictMixin`). -/
def Request.Job.to_dict (j : Request.Job) : List (String × JVal) :=
  DictMixin.to_dict j.dict

/-! ## `Job._order` POST body (`api.py`)

```
self._post(..., data=dump_json({
    "jobs": {
        "job_{}".format(i): job.to_dict() for i, job in enumerate(jobs)
    }
}))
```
-/

/-- The JSON body built by `Job._order` for a job sequence. -/
def order_data (jobs : List Request.Job) : String :=
  dump_json
    [("jobs", .obj (jobs.enum.map fun p => ("job_" ++ toString p.1, JVal.obj p.2.to_dict)))]

/-! ## `Job.batch_order` chunking (`api.py`)

```
chunks = []
chunk = []
previous_qualification = (None, None, None)
for job in jobs:
    qualification = (job.lc_src, job.lc_tgt, job.tier)
    if qualification != previous_qualification or len(chunk) == max_chunk_size:
        previous_qualification = qualification
        if chunk:
            chunks.append(chunk)
        chunk = []
    chunk.append(job)
if chunk:
    chunks.append(chunk)
```

`max_chunk_size` is a Python `int`, so it is an `Int` here (the function
performs no validation of it).  The initial `previous_qualification` is the
tuple `(None, None, None)`, which can never equal the qualification tuple
of enum members; it is modelled as `none : Option Qualification`.
-/

/-- The qualification key `(job.lc_src, job.lc_tgt, job.tier)`. -/
abbrev Qualification := LanguageCode × LanguageCode × Tier

def qualification (j : Request.Job) : Qualification :=
  (j.lc_src, j.lc_tgt, j.tier)

/-- The loop of `batch_order`, one iteration per job.  State: produced
`chunks`, current `chunk`, `previous_qualification`. -/
def batchLoop (mcs : Int) :
    List Request.Job → List (List Request.Job) → List Request.Job →
    Option Qualification → List (List Request.Job)
  | [], chunks, chunk, _prev =>
      if chunk.isEmpty then chunks else chunks ++ [chunk]
  | job :: rest, chunks, chunk, prev =>
      let q := qualification job
      if some q ≠ prev ∨ (chunk.length : Int) = mcs then
        batchLoop mcs rest (if chunk.isEmpty then chunks else chunks ++ [chunk]) [job] (some q)
      else
        batchLoop mcs rest chunks (chunk ++ [job]) prev

/-- The chunk list computed inside `Job.batch_order` (each chunk is then sent
to `Job._order`; the Python default for `max_chunk_size` is 50). -/
def batch_order_chunks (jobs : List Request.Job) (max_chunk_size : Int) : List (List Request.Job) :=
  batchLoop max_chunk_size jobs [] [] none

/-! ## SHA-1 and HMAC (`hashlib.sha1`, `hmac.new`)

`Credential.sign` computes
`hmac.new(self.private_key, timestamp.encode(), hashlib.sha1).hexdigest()`.
These are Python standard-library primitives (FIPS 180-1 SHA-1 and RFC 2104
HMAC); they are embedded here over byte lists, with 32-bit words as `Nat`
reduced `% 2 ^ 32`.
-/

/-- Rotate a 32-bit word left by `n` bits. -/
def rotl (n w : Nat) : Nat :=
  ((w <<< n) ||| (w >>> (32 - n))) % 2 ^ 32

/-- A 64-bit quantity as 8 big-endian bytes. -/
def toBE64 (n : Nat) : List Nat :=
  [n >>> 56 % 256, n >>> 48 % 256, n >>> 40 % 256, n >>> 32 % 256,
   n >>> 24 % 256, n >>> 16 % 256, n >>> 8 % 256, n % 256]

/-- A 32-bit word as 4 big-endian bytes. -/
def wordBytes (w : Nat) : List Nat :=
  [w >>> 24 % 256, w >>> 16 % 256, w >>> 8 % 256, w % 256]

/-- SHA-1 padding: a `0x80` byte, zeros to 56 mod 64, then the bit length as
8 big-endian bytes. -/
def sha1Pad (msg : List Nat) : List Nat :=
  msg ++ [128] ++ List.replicate ((119 - msg.length % 64) % 64) 0 ++ toBE64 (8 * msg.length)

/-- Big-endian 32-bit words from groups of four bytes. -/
def wordsBE : List Nat → List Nat
  | b0 :: b1 :: b2 :: b3 :: rest => (b0 <<< 24 ||| b1 <<< 16 ||| b2 <<< 8 ||| b3) :: wordsBE rest
  | _ => []

/-- Split into 64-byte blocks. -/
def blocks64 : List Nat → List (List Nat)
  | [] => []
  | b :: l => (b :: l).take 64 :: blocks64 ((b :: l).drop 64)
termination_by l => l.length
decreasing_by
  simp only [List.length_drop, List.length_cons]
  omega

/-- Extend 16 message words to the 80-word schedule:
`w[i] = rotl1 (w[i-3] xor w[i-8] xor w[i-14] xor w[i-16])`. -/
def sha1Extend (w16 : List Nat) : Array Nat :=
  (List.range 64).foldl
    (fun w i =>
      w.push (rotl 1 ((((w.getD (i + 13) 0).xor (w.getD (i + 8) 0)).xor
        (w.getD (i + 2) 0)).xor (w.getD i 0))))
    (Array.mk w16)

/-- The SHA-1 round function (`not b` is `b xor 0xffffffff` on 32 bits). -/
def sha1F (t b c d : Nat) : Nat :=
  if t < 20 then (b.land c) ||| ((b.xor 4294967295).land d)
  else if t < 40 then (b.xor c).xor d
  else if t < 60 then (b.land c) ||| (b.land d) ||| (c.land d)
  else (b.xor c).xor d

def sha1K (t : Nat) : Nat :=
  if t < 20 then 1518500249
  else if t < 40 then 1859775393
  else if t < 60 then 2400959708
  else 3395469782

/-- One SHA-1 compression step on the state `(a, b, c, d, e)`. -/
def sha1Round (w : Array Nat) (s : Nat × Nat × Nat × Nat × Nat) (t : Nat) :
    Nat × Nat × Nat × Nat × Nat :=
  let (a, b, c, d, e) := s
  ((rotl 5 a + sha1F t b c d + e + sha1K t + w.getD t 0) % 2 ^ 32, a, rotl 30 b, c, d)

/-- Process one 64-byte block into the running hash state. -/
def sha1Block (h : Nat × Nat × Nat × Nat × Nat) (block : List Nat) :
    Nat × Nat × Nat × Nat × Nat :=
  let w := sha1Extend (wordsBE block)
  let (h0, h1, h2, h3, h4) := h
  let (a, b, c, d, e) := (List.range 80).foldl (sha1Round w) (h0, h1, h2, h3, h4)
  ((h0 + a) % 2 ^ 32, (h1 + b) % 2 ^ 32, (h2 + c) % 2 ^ 32, (h3 + d) % 2 ^ 32, (h4 + e) % 2 ^ 32)

/-- The five 32-bit words of the SHA-1 digest of a byte string. -/
def sha1Words (msg : List Nat) : Nat × Nat × Nat × Nat × Nat :=
  (blocks64 (sha1Pad msg)).foldl sha1Block
    (1732584193, 4023233417, 2562383102, 271733878, 3285377520)

/-- `hashlib.sha1(msg).digest()`: the 20 digest bytes. -/
def sha1Bytes (msg : List Nat) : List Nat :=
  let (h0, h1, h2, h3, h4) := sha1Words msg
  wordBytes h0 ++ wordBytes h1 ++ wordBytes h2 ++ wordBytes h3 ++ wordBytes h4

/-- Bytes rendered as lowercase hexadecimal, two digits per byte
(`.hexdigest()`). -/
def bytesToHex (bs : List Nat) : String :=
  String.mk (bs.flatMap fun b => [hexDigit (b / 16 % 16), hexDigit (b % 16)])

/-- `hmac.new(key, msg, hashlib.sha1).digest()` (RFC 2104, block size 64). -/
def hmacSha1 (key msg : List Nat) : List Nat :=
  let key := if 64 < key.length then sha1Bytes key else key
  let key := key ++ List.replicate (64 - key.length) 0
  let opad := key.map fun b => b.xor 92
  let ipad := key.map fun b => b.xor 54
  sha1Bytes (opad ++ sha1Bytes (ipad ++ msg))

/-- `hmac.new(key, msg, hashlib.sha1).hexdigest()`. -/
def hmacSha1Hex (key msg : List Nat) : String :=
  bytesToHex (hmacSha1 key msg)

/-! ## `Credential` (`langedge/credential.py`) -/

/-- `str.encode()`: the UTF-8 bytes of a string. -/
def strBytes (s : String) : List Nat :=
  s.toUTF8.toList.map fun b => b.toNat

/-- `Credential.__init__` stores `url`, `public_key` and
`private_key.encode()`. -/
structure Credential where
  url : String
  public_key : String
  private_key : List Nat

/-- `Credential(url, public_key, private_key)`. -/
def Credential.ofKeys (url public_key private_key : String) : Credential :=
  ⟨url, public_key, strBytes private_key⟩

/-- A Python value appearing as a request parameter. -/
inductive PVal where
  | str (s : String)
  | int (n : Int)
deriving DecidableEq, Repr

/-- The keyword arguments `Credential.sign` passes to `dict(...)` by name. -/
def reservedKeys : List String := ["api_key", "ts", "api_sig"]

/-- `Credential.sign`.  The current clock (`int(time.time())`) is the `now`
parameter.  The Python body is

```
timestamp = str(int(time.time()))
return dict(
    api_key=self.public_key,
    ts=timestamp,
    api_sig=hmac.new(self.private_key, timestamp.encode(), hashlib.sha1).hexdigest(),
    **params
)
```

`dict(k=v, ..., **params)` raises `TypeError` when `params` repeats one of
the explicit keywords; otherwise the result holds the explicit keywords first
(in order) and then the entries of `params` in order. -/
def Credential.sign (c : Credential) (now : Nat) (params : List (String × PVal)) :
    Except String (List (String × PVal)) :=
  let timestamp := toString now
  if params.any fun kv => reservedKeys.contains kv.1 then
    .error "TypeError: dict() got multiple values for keyword argument"
  else
    .ok ([("api_key", .str c.public_key),
          ("ts", .str timestamp),
          ("api_sig", .str (hmacSha1Hex c.private_key (strBytes timestamp)))] ++ params)

/-! ## Response-side values (`langedge/models/response.py`)

A decoded JSON value as handed to the decoders (the transport parses the
body with `json.loads`; the service returns numbers as strings, so `WVal`
carries JSON scalars, arrays and objects). -/

inductive WVal where
  | null
  | bool (b : Bool)
  | int (n : Int)
  | str (s : String)
  | arr (xs : List WVal)
  | obj (kvs : List (String × WVal))

/-- Python truthiness `bool(x)`: `None`, `False`, zero, and empty containers
are falsy; everything else (including the string `"0"`) is truthy. -/
def pyBool : WVal → Bool
  | .null => false
  | .bool b => b
  | .int n => n != 0
  | .str s => s != ""
  | .arr xs => !xs.isEmpty
  | .obj kvs => !kvs.isEmpty

/-- The whitespace characters stripped by Python `str.strip()` (the set
relevant to numeric literals: space, tab, newline, carriage return, vertical
tab, form feed). -/
def isPySpace (c : Char) : Bool :=
  [32, 9, 10, 13, 11, 12].contains c.toNat

/-- Strip leading and trailing whitespace from a character list. -/
def trimChars (cs : List Char) : List Char :=
  ((cs.dropWhile isPySpace).reverse.dropWhile isPySpace).reverse

/-- A non-empty run of decimal digits as a number (`none` otherwise). -/
def digitsToNat (cs : List Char) : Option Nat :=
  if cs.isEmpty then none
  else cs.foldl
    (fun acc c => acc.bind fun n =>
      if 48 ≤ c.toNat ∧ c.toNat ≤ 57 then some (10 * n + (c.toNat - 48)) else none)
    (some 0)

/-- Python `int(s)` on a string: optional surrounding whitespace, optional
sign, decimal digits (underscore separators are not modelled). -/
def pyIntParse (s : String) : Option Int :=
  match trimChars s.data with
  | '-' :: r => (digitsToNat r).map fun n => -(n : Int)
  | '+' :: r => (digitsToNat r).map fun n => (n : Int)
  | t => (digitsToNat t).map fun n => (n : Int)

/-- Python `int(x)` for the values a decoder can meet: ints pass through,
booleans become 0/1, strings are parsed (`ValueError` otherwise), any other
type is a `TypeError`. -/
def pyInt : WVal → Except String Int
  | .int n => .ok n
  | .bool b => .ok (if b then 1 else 0)
  | .str s =>
      match pyIntParse s with
      | some n => .ok n
      | none => .error "ValueError: invalid literal for int()"
  | _ => .error "TypeError: int() argument"

/-- The exact decimal value `mant / 10 ^ scale` of a Python `float` literal.
Python `float(s)` rounds this value to the nearest IEEE-754 double; the
embedding keeps the exact decimal instead of a floating-point approximation.
-/
structure Dec where
  mant : Int
  scale : Nat
deriving DecidableEq, Repr

/-- Python `float(s)` on a string: optional surrounding whitespace, optional
sign, decimal digits with an optional fractional part (exponents, `inf` and
`nan` are not modelled). -/
def pyFloatParse (s : String) : Option Dec :=
  let t0 := trimChars s.data
  let sign : Int := match t0 with
    | '-' :: _ => -1
    | _ => 1
  let t : List Char := match t0 with
    | '-' :: r => r
    | '+' :: r => r
    | _ => t0
  let a := t.takeWhile fun c => c != '.'
  match t.dropWhile fun c => c != '.' with
  | [] => (digitsToNat a).map fun n => ⟨sign * n, 0⟩
  | _ :: b =>
      if b.contains '.' then none
      else if a.isEmpty && b.isEmpty then none
      else do
        let ai ← if a.isEmpty then some 0 else digitsToNat a
        let bi ← if b.isEmpty then some 0 else digitsToNat b
        some ⟨sign * ((ai : Int) * 10 ^ b.length + bi), b.length⟩

/-- Python `float(x)`: the number the value coerces to, as an exact decimal.
-/
def pyFloat : WVal → Except String Dec
  | .int n => .ok ⟨n, 0⟩
  | .bool b => .ok ⟨if b then 1 else 0, 0⟩
  | .str s =>
      match pyFloatParse s with
      | some q => .ok q
      | none => .error "ValueError: could not convert string to float"
  | _ => .error "TypeError: float() argument"

/-- Python iteration `[ ... for i in x]`: lists yield their elements, strings
their characters, dicts their keys. -/
def pyIterate : WVal → Except String (List WVal)
  | .arr xs => .ok xs
  | .str s => .ok (s.data.map fun c => .str (String.singleton c))
  | .obj kvs => .ok (kvs.map fun kv => .str kv.1)
  | _ => .error "TypeError: object is not iterable"

/-- `d[k]` on a dict (``KeyError`` when absent). -/
def getItem (d : List (String × WVal)) (k : String) : Except String WVal :=
  match d.lookup k with
  | some v => .ok v
  | none => .error ("KeyError: " ++ k)

/-- `d.pop(k)`: the value and the dict without that key. -/
def popItem (d : List (String × WVal)) (k : String) :
    Except String (WVal × List (String × WVal)) :=
  match d.lookup k with
  | some v => .ok (v, d.eraseP fun kv => kv.1 == k)
  | none => .error ("KeyError: " ++ k)

/-- `d[k]` where the decoder then indexes the result, so it must be a dict. -/
def getObjItem (d : List (String × WVal)) (k : String) :
    Except String (List (String × WVal)) :=
  match d.lookup k with
  | some (.obj kvs) => .ok kvs
  | some _ => .error "TypeError: value is not a dict"
  | none => .error ("KeyError: " ++ k)

/-- `_read_response_as_json(response)`:
`json.loads(response.read().decode())["response"]`, whose result every
decoder then indexes by key. -/
def readResponse (env : WVal) : Except String (List (String × WVal)) :=
  match env with
  | .obj kvs => getObjItem kvs "response"
  | _ => .error "TypeError: body is not a JSON object"

/-- `Currency[name]`: `enum.Enum` lookup by member name; `KeyError` for any
name outside the members, never a default. -/
def currencyOfName : WVal → Except String Currency
  | .str s =>
      if s = "USD" then .ok .USD
      else if s = "JPY" then .ok .JPY
      else .error ("KeyError: " ++ s)
  | _ => .error "KeyError: not a member name"

/-- `LanguageCode[name]`. -/
def languageOfName : WVal → Except String LanguageCode
  | .str s =>
      if s = "en" then .ok .en
      else if s = "ja" then .ok .ja
      else .error ("KeyError: " ++ s)
  | _ => .error "KeyError: not a member name"

/-- `Tier[name]`. -/
def tierOfName : WVal → Except String Tier
  | .str s =>
      if s = "standard" then .ok .standard
      else if s = "pro" then .ok .pro
      else .error ("KeyError: " ++ s)
  | _ => .error "KeyError: not a member name"

/-- `JobStatus[name]`. -/
def statusOfName : WVal → Except String JobStatus
  | .str s =>
      if s = "available" then .ok .available
      else if s = "reviewable" then .ok .reviewable
      else .error ("KeyError: " ++ s)
  | _ => .error "KeyError: not a member name"

namespace Response

/-- The `Balance` response: `__init__(*, currency, credits)` stores both;
`credits` is whatever value arrived (no coercion in the source). -/
structure Balance where
  currency : Currency
  credits : WVal

/-- `Balance(currency=currency, **data)`: keyword binding of the remaining
dict — `TypeError` on an unexpected key or when `credits` is missing. -/
def Balance.init (currency : Currency) (rest : List (String × WVal)) :
    Except String Balance :=
  if rest.any fun kv => kv.1 != "credits" then
    .error "TypeError: unexpected keyword argument"
  else
    match rest.lookup "credits" with
    | some v => .ok ⟨currency, v⟩
    | none => .error "TypeError: missing required argument: credits"

/-- `Balance.from_response`. -/
def Balance.from_response (env : WVal) : Except String Balance :=
  readResponse env >>= fun data =>
  popItem data "currency" >>= fun (craw, rest) =>
  currencyOfName craw >>= fun currency =>
  Balance.init currency rest

/-- The `OrderResult` response; the non-enum fields are stored uncoerced. -/
structure OrderResult where
  order_id : WVal
  job_count : WVal
  credits_used : WVal
  currency : Currency

/-- `OrderResult(currency=currency, **data)`. -/
def OrderResult.init (currency : Currency) (rest : List (String × WVal)) :
    Except String OrderResult :=
  if rest.any fun kv => !(["order_id", "job_count", "credits_used"].contains kv.1) then
    .error "TypeError: unexpected keyword argument"
  else
    match rest.lookup "order_id", rest.lookup "job_count", rest.lookup "credits_used" with
    | some a, some b, some c => .ok ⟨a, b, c, currency⟩
    | _, _, _ => .error "TypeError: missing required argument"

/-- `OrderResult.from_response`. -/
def OrderResult.from_response (env : WVal) : Except String OrderResult :=
  readResponse env >>= fun data =>
  popItem data "currency" >>= fun (craw, rest) =>
  currencyOfName craw >>= fun currency =>
  OrderResult.init currency rest

/-- The decoded `Order` ("This API returns everything as str", so the source
coerces each numeric field). -/
structure Order where
  order_id : Int
  total_credits : Dec
  total_units : Int
  total_jobs : Int
  currency : Currency
  jobs_available : List Int
  jobs_pending : List Int
  jobs_reviewable : List Int
  jobs_approved : List Int
  jobs_revising : List Int
  jobs_queued : Int
deriving DecidableEq

/-- `[int(i) for i in v]`. -/
def intList (v : WVal) : Except String (List Int) :=
  pyIterate v >>= fun xs => xs.mapM pyInt

/-- `Order.from_response`: reads `["order"]` of the payload and coerces in
the evaluation order of the keyword arguments (`data.pop` on `total_jobs`,
`jobs_queued` and `total_units` only removes keys that are never read again,
so it acts as a read). -/
def Order.from_response (env : WVal) : Except String Order :=
  readResponse env >>= fun outer =>
  getObjItem outer "order" >>= fun data =>
  (getItem data "order_id" >>= pyInt) >>= fun oid =>
  (getItem data "total_credits" >>= pyFloat) >>= fun tc =>
  (getItem data "currency" >>= currencyOfName) >>= fun cur =>
  (getItem data "jobs_available" >>= intList) >>= fun ja =>
  (getItem data "jobs_pending" >>= intList) >>= fun jp =>
  (getItem data "jobs_reviewable" >>= intList) >>= fun jr =>
  (getItem data "jobs_approved" >>= intList) >>= fun jap =>
  (getItem data "jobs_revising" >>= intList) >>= fun jrev =>
  (getItem data "total_jobs" >>= pyInt) >>= fun tj =>
  (getItem data "jobs_queued" >>= pyInt) >>= fun jq =>
  (getItem data "total_units" >>= pyInt) >>= fun tu =>
  .ok { order_id := oid, total_credits := tc, total_units := tu, total_jobs := tj,
        currency := cur, jobs_available := ja, jobs_pending := jp,
        jobs_reviewable := jr, jobs_approved := jap, jobs_revising := jrev,
        jobs_queued := jq }

/-- The response `Job` record.  Fields bound through `**source` keep their
wire value; `ctime` is `datetime.fromtimestamp(...)`, modelled by the POSIX
timestamp it wraps. -/
structure Job where
  job_id : WVal
  credits : WVal
  eta : WVal
  order_id : WVal
  currency : Currency
  ctime : Dec
  status : JobStatus
  slug : WVal
  body_src : WVal
  body_tgt : Option WVal
  lc_src : LanguageCode
  lc_tgt : LanguageCode
  tier : Tier
  auto_approve : Bool
  callback_url : WVal
  custom_data : Option WVal
  unit_count : WVal
  position : WVal

/-- The parameters of `Job.__init__` bound through `**source`
(`body_tgt` and `custom_data` default to `None`). -/
def Job.starKeys : List String :=
  ["job_id", "credits", "eta", "order_id", "slug", "body_src", "body_tgt",
   "callback_url", "custom_data", "unit_count", "position"]

/-- `Job(currency=…, lc_src=…, …, **source)`: the leftover dict must bind
exactly the remaining parameters — `TypeError` on an unexpected keyword or a
missing required one. -/
def Job.init (currency : Currency) (lc_src lc_tgt : LanguageCode) (tier : Tier)
    (status : JobStatus) (auto_approve : Bool) (ctime : Dec)
    (source : List (String × WVal)) : Except String Job :=
  if source.any fun kv => !Job.starKeys.contains kv.1 then
    .error "TypeError: unexpected keyword argument"
  else
    match source.lookup "job_id", source.lookup "credits", source.lookup "eta",
        source.lookup "order_id", source.lookup "slug", source.lookup "body_src",
        source.lookup "callback_url", source.lookup "unit_count",
        source.lookup "position" with
    | some job_id, some credits, some eta, some order_id, some slug,
        some body_src, some callback_url, some unit_count, some position =>
        .ok { job_id := job_id, credits := credits, eta := eta,
              order_id := order_id, currency := currency, ctime := ctime,
              status := status, slug := slug, body_src := body_src,
              body_tgt := source.lookup "body_tgt", lc_src := lc_src,
              lc_tgt := lc_tgt, tier := tier, auto_approve := auto_approve,
              callback_url := callback_url,
              custom_data := source.lookup "custom_data",
              unit_count := unit_count, position := position }
    | _, _, _, _, _, _, _, _, _ => .error "TypeError: missing required argument"

/-- `_Jobs._from_response(source)`: decode one element of the `jobs` array
(the enum lookups and `bool`/`fromtimestamp` coercions pop their keys, then
the leftover dict is splatted into `Job.__init__`). -/
def Jobs.from_item (source : List (String × WVal)) : Except String Job :=
  popItem source "currency" >>= fun (c, s1) =>
  currencyOfName c >>= fun currency =>
  popItem s1 "lc_src" >>= fun (l1, s2) =>
  languageOfName l1 >>= fun lc_src =>
  popItem s2 "lc_tgt" >>= fun (l2, s3) =>
  languageOfName l2 >>= fun lc_tgt =>
  popItem s3 "tier" >>= fun (t, s4) =>
  tierOfName t >>= fun tier =>
  popItem s4 "status" >>= fun (st, s5) =>
  statusOfName st >>= fun status =>
  popItem s5 "auto_approve" >>= fun (aa, s6) =>
  popItem s6 "ctime" >>= fun (ct, s7) =>
  pyFloat ct >>= fun ctime =>
  Job.init currency lc_src lc_tgt tier status (pyBool aa) ctime s7

/-- `_Jobs.from_response`: decode every element of `["jobs"]`. -/
def Jobs.from_response (env : WVal) : Except String (List Job) :=
  readResponse env >>= fun data =>
  getItem data "jobs" >>= fun jv =>
  (match jv with
   | .arr items => items.mapM fun item =>
      (match item with
       | .obj kvs => Jobs.from_item kvs
       | _ => .error "TypeError: job element is not a dict")
   | _ => .error "TypeError: jobs is not a list")

end Response

/-! ## Helper lemmas: the JSON dump -/

theorem dumpVal_obj (kvs : List (String × JVal)) :
    dumpVal (.obj kvs) =
      "\x7b" ++ String.intercalate ","
        (kvs.map fun kv => encodeStr kv.1 ++ ":" ++ dumpVal kv.2) ++ "\x7d" := by
  rw [dumpVal]
  have h := List.attach_map_val kvs fun kv => encodeStr kv.1 ++ ":" ++ dumpVal kv.2
  rw [h]

theorem intercalate_singleton (s x : String) : String.intercalate s [x] = x := rfl

/-- Characters that the CPython ASCII JSON encoder copies through unescaped. -/
def PlainChar (c : Char) : Prop :=
  c ≠ '"' ∧ c ≠ '\\' ∧ 32 ≤ c.toNat ∧ c.toNat ≤ 126

theorem escapeChar_plain {c : Char} (h : PlainChar c) :
    escapeChar c = String.singleton c := by
  obtain ⟨h1, h2, h3, h4⟩ := h
  unfold escapeChar
  rw [if_neg h1, if_neg h2, if_neg, if_neg, if_neg, if_neg, if_neg, if_neg] <;>
    first
      | (intro hc; rw [hc] at h3; exact absurd h3 (by decide))
      | (intro hc; omega)

theorem foldl_append_singleton (l : List Char) :
    ∀ acc : String, (l.map String.singleton).foldl (· ++ ·) acc = acc ++ String.mk l := by
  induction l with
  | nil => intro acc; apply String.ext; simp
  | cons c t ih =>
      intro acc
      simp only [List.map_cons, List.foldl_cons]
      rw [ih]
      apply String.ext
      simp [String.singleton]

theorem encodeStr_plain (s : String) (h : ∀ c ∈ s.data, PlainChar c) :
    encodeStr s = "\"" ++ s ++ "\"" := by
  unfold encodeStr
  have hm : s.data.map escapeChar = s.data.map String.singleton :=
    List.map_congr_left fun c hc => escapeChar_plain (h c hc)
  rw [hm, String.join, foldl_append_singleton]
  cases s
  apply String.ext
  simp

/-! ## Helper lemmas: decimal digits are plain characters -/

theorem digitChar_plain {m : Nat} (hm : m < 10) :
    PlainChar (Nat.digitChar m) ∧ 48 ≤ (Nat.digitChar m).toNat ∧ (Nat.digitChar m).toNat ≤ 57 := by
  interval_cases m <;> exact ⟨⟨by decide, by decide, by decide, by decide⟩, by decide, by decide⟩

theorem toDigitsCore_plain (b : Nat) (hb : b = 10) :
    ∀ (f n : Nat) (acc : List Char), (∀ c ∈ acc, PlainChar c) →
      ∀ c ∈ Nat.toDigitsCore b f n acc, PlainChar c := by
  intro f
  induction f with
  | zero => intro n acc hacc c hc; exact hacc c hc
  | succ f ih =>
      intro n acc hacc c hc
      rw [Nat.toDigitsCore] at hc
      have hd : PlainChar (Nat.digitChar (n % b)) := by
        subst hb
        exact (digitChar_plain (Nat.mod_lt _ (by omega))).1
      by_cases hz : n / b = 0
      · rw [if_pos hz] at hc
        rcases List.mem_cons.mp hc with h | h
        · rw [h]; exact hd
        · exact hacc c h
      · rw [if_neg hz] at hc
        refine ih (n / b) (Nat.digitChar (n % b) :: acc) ?_ c hc
        intro c' hc'
        rcases List.mem_cons.mp hc' with h | h
        · rw [h]; exact hd
        · exact hacc c' h

theorem toString_nat_plain (n : Nat) : ∀ c ∈ (toString n).data, PlainChar c := by
  intro c hc
  have : (toString n).data = Nat.toDigitsCore 10 (n + 1) n [] := rfl
  rw [this] at hc
  exact toDigitsCore_plain 10 rfl (n + 1) n [] (by simp) c hc

theorem encodeStr_jobKey (n : Nat) :
    encodeStr ("job_" ++ toString n) = "\"job_" ++ toString n ++ "\"" := by
  rw [encodeStr_plain]
  · apply String.ext
    simp
  · intro c hc
    rw [String.data_append] at hc
    rcases List.mem_append.mp hc with h | h
    · have hd : ("job_" : String).data = ['j', 'o', 'b', '_'] := rfl
      rw [hd] at h
      simp only [List.mem_cons, List.not_mem_nil, or_false] at h
      rcases h with rfl | rfl | rfl | rfl <;>
        exact ⟨by decide, by decide, by decide, by decide⟩
    · exact toString_nat_plain n c h

/-! ## Claims C4 and C5 -/

/-- C4: for every finite sequence of request jobs, `Job._order` builds the
POST body as compact JSON — brace, the quoted key `jobs`, a colon, then an
inner object whose `i`-th entry is the quoted key `job_i` (zero-based, in
input order), a colon, and the sparse-encoded dictionary of the `i`-th job,
entries joined by a bare comma — and every enum value in the payload is
serialized by its symbolic name (never its ordinal). -/
theorem order_body_compact_indexed (jobs : List Request.Job) :
    order_data jobs =
      "\x7b\"jobs\":\x7b" ++
        String.intercalate ","
          (jobs.enum.map fun p =>
            "\"job_" ++ toString p.1 ++ "\":" ++ dumpVal (.obj p.2.to_dict)) ++
        "\x7d\x7d"
    ∧ (∀ e : ReqEnum, dumpVal (.enum e) = "\"" ++ e.name ++ "\"")
    ∧ (∀ e : ReqEnum, dumpVal (.enum e) ≠ toString e.value) := by
  refine ⟨?_, ?_, ?_⟩
  · rw [order_data, dump_json, dumpVal_obj]
    simp only [List.map_cons, List.map_nil]
    rw [intercalate_singleton, dumpVal_obj, List.map_map]
    have hm : (jobs.enum.map
          ((fun kv => encodeStr kv.1 ++ ":" ++ dumpVal kv.2) ∘
            fun p => ("job_" ++ toString p.1, JVal.obj p.2.to_dict)))
        = jobs.enum.map fun p =>
            "\"job_" ++ toString p.1 ++ "\":" ++ dumpVal (.obj p.2.to_dict) := by
      apply List.map_congr_left
      intro p _
      simp only [Function.comp]
      rw [encodeStr_jobKey]
      apply String.ext
      simp only [String.data_append, List.append_assoc]
      rfl
    rw [hm]
    apply String.ext
    simp only [String.data_append, List.append_assoc]
    rfl
  · intro e
    cases e with
    | jobType v => cases v; simp only [dumpVal]; rfl
    | lang v => cases v <;> (simp only [dumpVal]; rfl)
    | tier v => cases v <;> (simp only [dumpVal]; rfl)
  · intro e
    cases e with
    | jobType v => cases v; simp only [dumpVal]; decide
    | lang v => cases v <;> (simp only [dumpVal]; decide)
    | tier v => cases v <;> (simp only [dumpVal]; decide)

/-- C5: `to_dict` keeps exactly the fields whose value is not `None`: the
seven required fields always appear (booleans included even when `false`),
each optional field appears exactly when it has a value, and — for the
generic `DictMixin.to_dict` — entries with value `false` or `0` survive the
filter while `None` entries are dropped. -/
theorem to_dict_sparse_encoding (j : Request.Job) :
    j.to_dict =
      [("job_type", .enum (.jobType j.job_type)),
       ("slug", .str j.slug),
       ("body_src", .str j.body_src),
       ("lc_src", .enum (.lang j.lc_src)),
       ("lc_tgt", .enum (.lang j.lc_tgt)),
       ("tier", .enum (.tier j.tier)),
       ("auto_approve", .bool j.auto_approve)] ++
      (match j.comment with
       | some s => [("comment", JVal.str s)]
       | none => []) ++
      (match j.callback_url with
       | some s => [("callback_url", JVal.str s)]
       | none => []) ++
      (match j.custom_data with
       | some s => [("custom_data", JVal.str s)]
       | none => []) ++
      [("force", .bool j.force), ("use_preferred", .bool j.use_preferred)]
    ∧ DictMixin.to_dict [("n", JVal.int 0), ("b", JVal.bool false), ("x", JVal.null)]
        = [("n", JVal.int 0), ("b", JVal.bool false)] := by
  constructor
  · obtain ⟨jt, slug, bs, ls, lt, tier, aa, c, cb, cd, f, up⟩ := j
    cases c <;> cases cb <;> cases cd <;> rfl
  · rfl

/-! ## Helper lemmas: hex digests and `Credential.sign` -/

theorem List.getD_mem_of_mem {α : Type} (l : List α) (n : Nat) (d : α) (hd : d ∈ l) :
    l.getD n d ∈ l := by
  rw [List.getD]
  cases h : l.get? n with
  | none => simpa using hd
  | some a => simpa using List.get?_mem h

theorem hexDigit_mem (n : Nat) : hexDigit n ∈ hexDigits :=
  List.getD_mem_of_mem _ n '0' (by decide)

theorem bytesToHex_length (bs : List Nat) : (bytesToHex bs).length = 2 * bs.length := by
  rw [bytesToHex]
  show (bs.flatMap fun b => [hexDigit (b / 16 % 16), hexDigit (b % 16)]).length = 2 * bs.length
  induction bs with
  | nil => rfl
  | cons b t ih => simp only [List.flatMap_cons, List.length_append, List.length_cons,
      List.length_nil, ih, List.length_cons]; omega

theorem bytesToHex_chars (bs : List Nat) : ∀ c ∈ (bytesToHex bs).data, c ∈ hexDigits := by
  intro c hc
  rw [bytesToHex] at hc
  replace hc : c ∈ bs.flatMap fun b => [hexDigit (b / 16 % 16), hexDigit (b % 16)] := hc
  obtain ⟨b, _, hcb⟩ := List.mem_flatMap.mp hc
  rcases List.mem_cons.mp hcb with rfl | hcb'
  · exact hexDigit_mem _
  · rcases List.mem_cons.mp hcb' with rfl | h
    · exact hexDigit_mem _
    · cases h

theorem sha1Bytes_length (msg : List Nat) : (sha1Bytes msg).length = 20 := by
  rw [sha1Bytes]
  obtain ⟨a, b, c, d, e⟩ := sha1Words msg
  rfl

theorem hmacSha1_length (key msg : List Nat) : (hmacSha1 key msg).length = 20 := by
  rw [hmacSha1]
  exact sha1Bytes_length _

theorem hmacSha1Hex_length (key msg : List Nat) : (hmacSha1Hex key msg).length = 40 := by
  rw [hmacSha1Hex, bytesToHex_length, hmacSha1_length]

/-- The successful branch of `Credential.sign`: no reserved key in `params`. -/
theorem sign_ok (c : Credential) (now : Nat) (params : List (String × PVal))
    (h : ∀ kv ∈ params, kv.1 ∉ reservedKeys) :
    Credential.sign c now params =
      .ok ([("api_key", .str c.public_key),
            ("ts", .str (toString now)),
            ("api_sig", .str (hmacSha1Hex c.private_key (strBytes (toString now))))] ++ params) := by
  rw [Credential.sign]
  have hany : (params.any fun kv => reservedKeys.contains kv.1) = false := by
    rw [List.any_eq_false]
    intro kv hkv
    simpa [List.contains] using h kv hkv
  rw [hany]
  rfl

theorem lookup_api_sig (pk ts sig : PVal) (p : List (String × PVal)) :
    List.lookup "api_sig" ([("api_key", pk), ("ts", ts), ("api_sig", sig)] ++ p) = some sig :=
  rfl

/-! ## Claims C3, C8 and C9 -/

/-- C3 counterexample: a params mapping that already binds `ts` makes
`Credential.sign` raise `TypeError` instead of returning any mapping, so the
unconditional claim fails. -/
theorem sign_reserved_param_counterexample :
    Credential.sign (Credential.ofKeys "https://api" "pub" "priv") 0 [("ts", PVal.str "x")]
      = .error "TypeError: dict() got multiple values for keyword argument" := rfl

/-- C3 (amended with the proviso that `params` binds none of the keys
`api_key`, `ts`, `api_sig`): `Credential.sign` returns a new mapping equal to
`params` plus exactly the three entries `api_key` (the public key), `ts` (the
current unix seconds as a decimal string) and `api_sig` (the HMAC-SHA1 of the
timestamp string keyed by the private key, rendered as 40 lowercase
hexadecimal digits); the input mapping is not modified (the embedding is a
pure function of `params`). -/
theorem sign_adds_exactly_three_entries (c : Credential) (now : Nat)
    (params : List (String × PVal)) (h : ∀ kv ∈ params, kv.1 ∉ reservedKeys) :
    Credential.sign c now params =
      .ok ([("api_key", .str c.public_key),
            ("ts", .str (toString now)),
            ("api_sig", .str (hmacSha1Hex c.private_key (strBytes (toString now))))] ++ params)
    ∧ (hmacSha1Hex c.private_key (strBytes (toString now))).length = 40
    ∧ ∀ ch ∈ (hmacSha1Hex c.private_key (strBytes (toString now))).data, ch ∈ hexDigits :=
  ⟨sign_ok c now params h, hmacSha1Hex_length _ _, bytesToHex_chars _⟩

theorem sign_adds_exactly_three_entries_witness :
    (∀ kv ∈ ([("q", PVal.str "1")] : List (String × PVal)), kv.1 ∉ reservedKeys)
    ∧ Credential.sign (Credential.ofKeys "u" "pub" "priv") 7 [("q", PVal.str "1")] =
        .ok ([("api_key", .str "pub"),
              ("ts", .str "7"),
              ("api_sig", .str (hmacSha1Hex (strBytes "priv") (strBytes "7")))] ++
             [("q", PVal.str "1")]) :=
  ⟨by decide,
   (sign_adds_exactly_three_entries (Credential.ofKeys "u" "pub" "priv") 7
     [("q", PVal.str "1")] (by decide)).1⟩

/-- C8: the `api_sig` entry produced by `Credential.sign` is a function of
the private key and the timestamp alone — two calls at the same clock value
with the same private key give the same signature, whatever the other
credential fields and the other request params are. -/
theorem sign_signature_depends_only_on_key_and_time
    (c₁ c₂ : Credential) (now : Nat) (p₁ p₂ : List (String × PVal))
    (hk : c₁.private_key = c₂.private_key)
    (h₁ : ∀ kv ∈ p₁, kv.1 ∉ reservedKeys) (h₂ : ∀ kv ∈ p₂, kv.1 ∉ reservedKeys) :
    (Credential.sign c₁ now p₁).map (List.lookup "api_sig") =
      (Credential.sign c₂ now p₂).map (List.lookup "api_sig") := by
  rw [sign_ok c₁ now p₁ h₁, sign_ok c₂ now p₂ h₂]
  show Except.ok (List.lookup "api_sig" _) = Except.ok (List.lookup "api_sig" _)
  rw [lookup_api_sig, lookup_api_sig, hk]

theorem sign_signature_depends_only_on_key_and_time_witness :
    (Credential.sign (Credential.ofKeys "u1" "pubA" "k") 9 []).map (List.lookup "api_sig") =
      (Credential.sign (Credential.ofKeys "u2" "pubB" "k") 9
        [("q", PVal.str "z")]).map (List.lookup "api_sig") :=
  sign_signature_depends_only_on_key_and_time
    (Credential.ofKeys "u1" "pubA" "k") (Credential.ofKeys "u2" "pubB" "k") 9
    [] [("q", PVal.str "z")] rfl (by decide) (by decide)

/-- C9: when `params` already binds `api_key`, `ts` or `api_sig`,
`Credential.sign` raises `TypeError` (duplicate keyword argument) instead of
letting either value silently override the other. -/
theorem sign_reserved_key_type_error (c : Credential) (now : Nat)
    (params : List (String × PVal)) (k : String) (v : PVal)
    (hmem : (k, v) ∈ params) (hres : k ∈ reservedKeys) :
    Credential.sign c now params =
      .error "TypeError: dict() got multiple values for keyword argument" := by
  rw [Credential.sign]
  have hany : (params.any fun kv => reservedKeys.contains kv.1) = true := by
    rw [List.any_eq_true]
    exact ⟨(k, v), hmem, by simpa [List.contains] using hres⟩
  rw [hany]
  rfl

theorem sign_reserved_key_type_error_witness :
    ((("api_key" : String), PVal.str "X") ∈ [(("api_key" : String), PVal.str "X")])
    ∧ ("api_key" ∈ reservedKeys)
    ∧ Credential.sign (Credential.ofKeys "u" "p" "s") 3 [("api_key", PVal.str "X")] =
        .error "TypeError: dict() got multiple values for keyword argument" :=
  ⟨by decide, by decide,
   sign_reserved_key_type_error (Credential.ofKeys "u" "p" "s") 3
     [("api_key", PVal.str "X")] "api_key" (PVal.str "X") (by decide) (by decide)⟩

/-! ## Helper lemmas: the batcher -/

/-- All jobs of a chunk share the same qualification key. -/
def Homog (c : List Request.Job) : Prop :=
  ∀ a ∈ c, ∀ b ∈ c, qualification a = qualification b

/-- Invariant of the `batch_order` loop: the produced chunks concatenate to
the already-consumed input followed by the remaining input, and every chunk
is non-empty and qualification-homogeneous.  (No bound on `mcs` is needed
for this part.) -/
theorem batchLoop_inv (mcs : Int) :
    ∀ (rest : List Request.Job) (chunks : List (List Request.Job))
      (chunk : List Request.Job) (prev : Option Qualification),
      (∀ c ∈ chunks, c ≠ [] ∧ Homog c) →
      (∀ j ∈ chunk, some (qualification j) = prev) →
      (batchLoop mcs rest chunks chunk prev).flatten = chunks.flatten ++ chunk ++ rest ∧
      ∀ c ∈ batchLoop mcs rest chunks chunk prev, c ≠ [] ∧ Homog c := by
  intro rest
  induction rest with
  | nil =>
      intro chunks chunk prev hchunks hchunk
      rw [batchLoop]
      by_cases hce : chunk.isEmpty
      · rw [if_pos hce]
        have hnil : chunk = [] := List.isEmpty_iff.mp hce
        exact ⟨by rw [hnil]; simp, hchunks⟩
      · rw [if_neg hce]
        refine ⟨by simp, ?_⟩
        intro c hc
        rcases List.mem_append.mp hc with h | h
        · exact hchunks c h
        · have hc1 : c = chunk := by simpa using h
          refine ⟨?_, ?_⟩
          · rw [hc1]; intro hn; exact hce (by rw [hn]; rfl)
          · rw [hc1]
            intro a ha b hb
            have h1 := hchunk a ha
            have h2 := hchunk b hb
            rw [← h2] at h1
            exact Option.some.inj h1
  | cons job rest ih =>
      intro chunks chunk prev hchunks hchunk
      rw [batchLoop]
      by_cases hcond : some (qualification job) ≠ prev ∨ (chunk.length : Int) = mcs
      · rw [if_pos hcond]
        have hch' : ∀ c ∈ (if chunk.isEmpty then chunks else chunks ++ [chunk]),
            c ≠ [] ∧ Homog c := by
          by_cases hce : chunk.isEmpty
          · rw [if_pos hce]; exact hchunks
          · rw [if_neg hce]
            intro c hc
            rcases List.mem_append.mp hc with h | h
            · exact hchunks c h
            · have hc1 : c = chunk := by simpa using h
              refine ⟨?_, ?_⟩
              · rw [hc1]; intro hn; exact hce (by rw [hn]; rfl)
              · rw [hc1]
                intro a ha b hb
                have h1 := hchunk a ha
                have h2 := hchunk b hb
                rw [← h2] at h1
                exact Option.some.inj h1
        have hnew : ∀ j ∈ [job], some (qualification j) = some (qualification job) := by
          intro j hj
          have : j = job := by simpa using hj
          rw [this]
        obtain ⟨hjoin, hmem⟩ := ih (if chunk.isEmpty then chunks else chunks ++ [chunk])
          [job] (some (qualification job)) hch' hnew
        refine ⟨?_, hmem⟩
        rw [hjoin]
        by_cases hce : chunk.isEmpty
        · have hnil : chunk = [] := List.isEmpty_iff.mp hce
          rw [if_pos hce, hnil]
          simp
        · rw [if_neg hce]
          simp [List.append_assoc]
      · rw [if_neg hcond]
        have hps := not_or.mp hcond
        have heq : some (qualification job) = prev := not_not.mp hps.1
        have hch' : ∀ j ∈ chunk ++ [job], some (qualification j) = prev := by
          intro j hj
          rcases List.mem_append.mp hj with h | h
          · exact hchunk j h
          · have : j = job := by simpa using h
            rw [this]; exact heq
        obtain ⟨hjoin, hmem⟩ := ih chunks (chunk ++ [job]) prev hchunks hch'
        refine ⟨?_, hmem⟩
        rw [hjoin]
        simp [List.append_assoc]

/-- Size part of the loop invariant, needing `1 ≤ mcs`. -/
theorem batchLoop_size (mcs : Int) (hm : 1 ≤ mcs) :
    ∀ (rest : List Request.Job) (chunks : List (List Request.Job))
      (chunk : List Request.Job) (prev : Option Qualification),
      (∀ c ∈ chunks, (c.length : Int) ≤ mcs) → (chunk.length : Int) ≤ mcs →
      ∀ c ∈ batchLoop mcs rest chunks chunk prev, (c.length : Int) ≤ mcs := by
  intro rest
  induction rest with
  | nil =>
      intro chunks chunk prev hchunks hchunk
      rw [batchLoop]
      by_cases hce : chunk.isEmpty
      · rw [if_pos hce]; exact hchunks
      · rw [if_neg hce]
        intro c hc
        rcases List.mem_append.mp hc with h | h
        · exact hchunks c h
        · have hc1 : c = chunk := by simpa using h
          rw [hc1]; exact hchunk
  | cons job rest ih =>
      intro chunks chunk prev hchunks hchunk
      rw [batchLoop]
      by_cases hcond : some (qualification job) ≠ prev ∨ (chunk.length : Int) = mcs
      · rw [if_pos hcond]
        refine ih _ [job] (some (qualification job)) ?_ (by simpa using hm)
        by_cases hce : chunk.isEmpty
        · rw [if_pos hce]; exact hchunks
        · rw [if_neg hce]
          intro c hc
          rcases List.mem_append.mp hc with h | h
          · exact hchunks c h
          · have hc1 : c = chunk := by simpa using h
            rw [hc1]; exact hchunk
      · rw [if_neg hcond]
        have hps := not_or.mp hcond
        have hne : (chunk.length : Int) ≠ mcs := hps.2
        refine ih chunks (chunk ++ [job]) prev hchunks ?_
        simp only [List.length_append, List.length_cons, List.length_nil]
        push_cast
        omega

/-! ## Claims C1 and C2 -/

/-- C1: for every job sequence and every `max_chunk_size ≥ 1`, the chunking
inside `Job.batch_order` partitions the input exactly (concatenating the
chunks reproduces the input — nothing dropped, duplicated or reordered),
every chunk is non-empty with length at most `max_chunk_size`, and within
each chunk all jobs share the same `(lc_src, lc_tgt, tier)` qualification
key. -/
theorem batch_order_partition_invariant (jobs : List Request.Job) (mcs : Int)
    (h : 1 ≤ mcs) :
    (batch_order_chunks jobs mcs).flatten = jobs ∧
    ∀ c ∈ batch_order_chunks jobs mcs, c ≠ [] ∧ (c.length : Int) ≤ mcs ∧ Homog c := by
  obtain ⟨hjoin, hmem⟩ := batchLoop_inv mcs jobs [] [] none (by simp) (by simp)
  have hsize := batchLoop_size mcs h jobs [] [] none (by simp) (by simp; omega)
  exact ⟨by simpa using hjoin,
    fun c hc => ⟨(hmem c hc).1, hsize c hc, (hmem c hc).2⟩⟩

/-- A concrete request job used to instantiate the batching claims. -/
def sampleJob (t : Tier) : Request.Job :=
  { job_type := .text, slug := "s", body_src := "b", lc_src := .en, lc_tgt := .ja,
    tier := t, auto_approve := false }

theorem batch_order_partition_invariant_witness :
    (1 : Int) ≤ 2 ∧
      (batch_order_chunks (List.replicate 5 (sampleJob .standard)) 2).flatten =
        List.replicate 5 (sampleJob .standard) :=
  ⟨by decide,
   (batch_order_partition_invariant (List.replicate 5 (sampleJob .standard)) 2 (by decide)).1⟩

/-- C2 counterexample: a call with `max_chunk_size = 0` is not rejected —
the chunking silently succeeds and returns one chunk holding both jobs
(the size limit is simply never triggered). -/
theorem batch_order_zero_size_counterexample :
    batch_order_chunks [sampleJob .standard, sampleJob .standard] 0 =
      [[sampleJob .standard, sampleJob .standard]] := by decide

/-- C2 (amended): `Job.batch_order` performs no validation of
`max_chunk_size`: a call with `max_chunk_size = 0` or negative is not
signaled as a configuration error; the chunking silently proceeds and still
partitions the input into non-empty qualification-homogeneous chunks, with
no size bound enforced. -/
theorem batch_order_nonpositive_size_not_rejected (jobs : List Request.Job)
    (mcs : Int) (_h : mcs ≤ 0) :
    (batch_order_chunks jobs mcs).flatten = jobs ∧
    ∀ c ∈ batch_order_chunks jobs mcs, c ≠ [] ∧ Homog c := by
  obtain ⟨hjoin, hmem⟩ := batchLoop_inv mcs jobs [] [] none (by simp) (by simp)
  exact ⟨by simpa using hjoin, hmem⟩

theorem batch_order_nonpositive_size_not_rejected_witness :
    (0 : Int) ≤ 0 ∧
      (batch_order_chunks [sampleJob .standard, sampleJob .pro] 0).flatten =
        [sampleJob .standard, sampleJob .pro] :=
  ⟨by decide,
   (batch_order_nonpositive_size_not_rejected [sampleJob .standard, sampleJob .pro] 0
     (by decide)).1⟩

/-! ## Helper lemmas: `Except` binds -/

theorem except_bind_ok {ε α β : Type} (a : α) (f : α → Except ε β) :
    (Except.ok a >>= f : Except ε β) = f a := rfl

theorem except_bind_err {ε α β : Type} (e : ε) (f : α → Except ε β) :
    (Except.error e >>= f : Except ε β) = Except.error e := rfl

/-! ## Claim C6 -/

/-- C6: a response whose `currency` field is a name outside `{USD, JPY}`
makes both `Balance.from_response` and `OrderResult.from_response` fail with
the `KeyError` of the enum lookup — no default currency is ever substituted. -/
theorem unknown_currency_decode_error (env : WVal) (data : List (String × WVal))
    (s : String) (hread : readResponse env = .ok data)
    (hcur : data.lookup "currency" = some (.str s))
    (h1 : s ≠ "USD") (h2 : s ≠ "JPY") :
    Response.Balance.from_response env = .error ("KeyError: " ++ s) ∧
    Response.OrderResult.from_response env = .error ("KeyError: " ++ s) := by
  have hpop : popItem data "currency" =
      .ok (.str s, data.eraseP fun kv => kv.1 == "currency") := by
    rw [popItem, hcur]
  have hlook : currencyOfName (.str s) = .error ("KeyError: " ++ s) := by
    rw [currencyOfName, if_neg h1, if_neg h2]
  constructor
  · rw [Response.Balance.from_response, hread, except_bind_ok, hpop, except_bind_ok]
    dsimp only
    rw [hlook, except_bind_err]
  · rw [Response.OrderResult.from_response, hread, except_bind_ok, hpop, except_bind_ok]
    dsimp only
    rw [hlook, except_bind_err]

/-- A concrete envelope carrying an unknown currency code. -/
def dataEUR : List (String × WVal) := [("currency", .str "EUR"), ("credits", .int 1)]

def envEUR : WVal := .obj [("response", .obj dataEUR)]

theorem unknown_currency_decode_error_witness :
    ("EUR" ≠ "USD") ∧ ("EUR" ≠ "JPY") ∧
      Response.Balance.from_response envEUR = .error ("KeyError: " ++ "EUR") :=
  ⟨by decide, by decide,
   (unknown_currency_decode_error envEUR dataEUR "EUR" rfl rfl (by decide) (by decide)).1⟩

/-! ## Claim C7 -/

/-- Elementwise reading of a successful `mapM pyInt`: the output has one
integer per input element, in the same positions. -/
theorem mapM_pyInt_getD (xs : List WVal) :
    ∀ ys : List Int, xs.mapM pyInt = .ok ys →
      ys.length = xs.length ∧
      ∀ i, i < xs.length → pyInt (xs.getD i .null) = .ok (ys.getD i 0) := by
  induction xs with
  | nil =>
      intro ys h
      rw [List.mapM_nil] at h
      cases h
      exact ⟨rfl, fun i hi => absurd hi (by simp)⟩
  | cons x t ih =>
      intro ys h
      rw [List.mapM_cons] at h
      cases hx : pyInt x with
      | error e => rw [hx, except_bind_err] at h; cases h
      | ok b =>
          rw [hx, except_bind_ok] at h
          cases ht : t.mapM pyInt with
          | error e => rw [ht, except_bind_err] at h; cases h
          | ok bs =>
              rw [ht, except_bind_ok] at h
              cases h
              obtain ⟨hlen, hidx⟩ := ih bs ht
              refine ⟨by simp [hlen], ?_⟩
              intro i hi
              cases i with
              | zero => simpa using hx
              | succ n =>
                  simp only [List.getD_cons_succ]
                  exact hidx n (by simpa using hi)

/-- C7: on a well-formed order envelope, `Order.from_response` coerces every
numeric field that arrives on the wire (`order_id`, `total_jobs`,
`total_units`, `jobs_queued` via `int`, `total_credits` via `float`), and
each `jobs_*` array decodes elementwise to the integer job identifiers in
exactly the order the server returned them. -/
theorem order_decode_coercions (env : WVal) (outer data : List (String × WVal))
    (oid tj tu jq : Int) (tc : Dec) (cur : Currency)
    (ja jp jr jap jrev : List Int)
    (hread : readResponse env = .ok outer)
    (horder : outer.lookup "order" = some (.obj data))
    (h1 : (getItem data "order_id" >>= pyInt) = .ok oid)
    (h2 : (getItem data "total_credits" >>= pyFloat) = .ok tc)
    (h3 : (getItem data "currency" >>= currencyOfName) = .ok cur)
    (h4 : (getItem data "jobs_available" >>= Response.intList) = .ok ja)
    (h5 : (getItem data "jobs_pending" >>= Response.intList) = .ok jp)
    (h6 : (getItem data "jobs_reviewable" >>= Response.intList) = .ok jr)
    (h7 : (getItem data "jobs_approved" >>= Response.intList) = .ok jap)
    (h8 : (getItem data "jobs_revising" >>= Response.intList) = .ok jrev)
    (h9 : (getItem data "total_jobs" >>= pyInt) = .ok tj)
    (h10 : (getItem data "jobs_queued" >>= pyInt) = .ok jq)
    (h11 : (getItem data "total_units" >>= pyInt) = .ok tu) :
    Response.Order.from_response env =
      .ok { order_id := oid, total_credits := tc, total_units := tu, total_jobs := tj,
            currency := cur, jobs_available := ja, jobs_pending := jp,
            jobs_reviewable := jr, jobs_approved := jap, jobs_revising := jrev,
            jobs_queued := jq }
    ∧ ∀ (xs : List WVal) (ys : List Int), Response.intList (.arr xs) = .ok ys →
        ys.length = xs.length ∧
        ∀ i, i < xs.length → pyInt (xs.getD i .null) = .ok (ys.getD i 0) := by
  constructor
  · have hobj : getObjItem outer "order" = .ok data := by rw [getObjItem, horder]
    simp only [Response.Order.from_response, hread, except_bind_ok, hobj,
      h1, h2, h3, h4, h5, h6, h7, h8, h9, h10, h11]
  · intro xs ys h
    rw [Response.intList] at h
    rw [show pyIterate (.arr xs) = .ok xs from rfl, except_bind_ok] at h
    exact mapM_pyInt_getD xs ys h

/-- A canned order envelope matching the documented schema, all numbers as
strings. -/
def orderData : List (String × WVal) :=
  [("order_id", .str "8217"), ("total_credits", .str "512.5"),
   ("currency", .str "USD"),
   ("jobs_available", .arr [.str "20", .str "21"]),
   ("jobs_pending", .arr [.str "22"]),
   ("jobs_reviewable", .arr []),
   ("jobs_approved", .arr [.str "23"]),
   ("jobs_revising", .arr []),
   ("total_jobs", .str "4"), ("jobs_queued", .str "0"),
   ("total_units", .str "100")]

def orderEnv : WVal := .obj [("response", .obj [("order", .obj orderData)])]

theorem order_decode_coercions_witness :
    Response.Order.from_response orderEnv =
      .ok { order_id := 8217, total_credits := ⟨5125, 1⟩, total_units := 100,
            total_jobs := 4, currency := .USD, jobs_available := [20, 21],
            jobs_pending := [22], jobs_reviewable := [], jobs_approved := [23],
            jobs_revising := [], jobs_queued := 0 } :=
  (order_decode_coercions orderEnv [("order", .obj orderData)] orderData
    8217 4 100 0 ⟨5125, 1⟩ .USD [20, 21] [22] [] [23] []
    (by rfl) (by rfl) (by rfl) (by rfl) (by rfl) (by rfl) (by rfl) (by rfl)
    (by rfl) (by rfl) (by rfl) (by rfl) (by rfl)).1

/-! ## Helper lemmas: `d.pop(k)` and lookups -/

theorem popItem_ok {d : List (String × WVal)} {k : String} {v : WVal}
    {rest : List (String × WVal)} (h : popItem d k = .ok (v, rest)) :
    d.lookup k = some v ∧ rest = d.eraseP fun kv => kv.1 == k := by
  rw [popItem] at h
  cases hl : d.lookup k with
  | none => rw [hl] at h; cases h
  | some w =>
      rw [hl] at h
      injection h with h'
      exact ⟨congrArg (fun x => some x.1) h', (congrArg Prod.snd h').symm⟩

/-- Popping one key of a dict leaves the lookup of every other key
unchanged. -/
theorem lookup_eraseP_ne (l : List (String × WVal)) (k k' : String) (hne : k ≠ k') :
    (l.eraseP fun kv => kv.1 == k').lookup k = l.lookup k := by
  induction l with
  | nil => rfl
  | cons kv t ih =>
      obtain ⟨k0, v0⟩ := kv
      by_cases hk : k0 = k'
      · rw [List.eraseP_cons_of_pos (by simpa using hk), List.lookup_cons]
        have : (k == k0) = false := by
          rw [beq_eq_false_iff_ne]
          rw [hk]
          exact hne
        rw [this]
      · rw [List.eraseP_cons_of_neg (by simpa using hk), List.lookup_cons, List.lookup_cons]
        cases hkk : k == k0
        · exact ih
        · rfl

/-- The constructed `Job` holds exactly the `auto_approve` argument. -/
theorem job_init_auto_approve {cur : Currency} {l1 l2 : LanguageCode} {t : Tier}
    {st : JobStatus} {aa : Bool} {ct : Dec} {src : List (String × WVal)}
    {job : Response.Job}
    (h : Response.Job.init cur l1 l2 t st aa ct src = .ok job) :
    job.auto_approve = aa := by
  rw [Response.Job.init] at h
  split at h
  · cases h
  · split at h <;> (cases h; try rfl)

/-! ## Claim C10 -/

/-- C10: every job element decoded by `_Jobs._from_response` gets
`auto_approve = bool(raw)`, the Python truthiness of the raw wire value: any
non-empty string — the string `"0"` included — decodes to `true`, and a value
is falsy exactly when it is `None`, `False`, `0`, the empty string, or an
empty container. -/
theorem auto_approve_truthiness (source : List (String × WVal)) (v : WVal)
    (job : Response.Job)
    (hv : source.lookup "auto_approve" = some v)
    (hok : Response.Jobs.from_item source = .ok job) :
    job.auto_approve = pyBool v
    ∧ pyBool (.str "0") = true
    ∧ (∀ s : String, pyBool (.str s) = true ↔ s ≠ "")
    ∧ (∀ w : WVal, pyBool w = false ↔
        (w = .null ∨ w = .bool false ∨ w = .int 0 ∨ w = .str "" ∨
         w = .arr [] ∨ w = .obj [])) := by
  refine ⟨?_, rfl, ?_, ?_⟩
  · rw [Response.Jobs.from_item] at hok
    cases h1 : popItem source "currency" with
    | error e => rw [h1, except_bind_err] at hok; cases hok
    | ok p =>
        rw [h1, except_bind_ok] at hok
        obtain ⟨c, s1⟩ := p
        try dsimp only at hok
        cases h2 : currencyOfName c with
        | error e => rw [h2, except_bind_err] at hok; cases hok
        | ok currency =>
            rw [h2, except_bind_ok] at hok
            try dsimp only at hok
            cases h3 : popItem s1 "lc_src" with
            | error e => rw [h3, except_bind_err] at hok; cases hok
            | ok p =>
                rw [h3, except_bind_ok] at hok
                obtain ⟨l1v, s2⟩ := p
                try dsimp only at hok
                cases h4 : languageOfName l1v with
                | error e => rw [h4, except_bind_err] at hok; cases hok
                | ok lc_src =>
                    rw [h4, except_bind_ok] at hok
                    try dsimp only at hok
                    cases h5 : popItem s2 "lc_tgt" with
                    | error e => rw [h5, except_bind_err] at hok; cases hok
                    | ok p =>
                        rw [h5, except_bind_ok] at hok
                        obtain ⟨l2v, s3⟩ := p
                        try dsimp only at hok
                        cases h6 : languageOfName l2v with
                        | error e => rw [h6, except_bind_err] at hok; cases hok
                        | ok lc_tgt =>
                            rw [h6, except_bind_ok] at hok
                            try dsimp only at hok
                            cases h7 : popItem s3 "tier" with
                            | error e => rw [h7, except_bind_err] at hok; cases hok
                            | ok p =>
                                rw [h7, except_bind_ok] at hok
                                obtain ⟨tv, s4⟩ := p
                                try dsimp only at hok
                                cases h8 : tierOfName tv with
                                | error e => rw [h8, except_bind_err] at hok; cases hok
                                | ok tier =>
                                    rw [h8, except_bind_ok] at hok
                                    try dsimp only at hok
                                    cases h9 : popItem s4 "status" with
                                    | error e => rw [h9, except_bind_err] at hok; cases hok
                                    | ok p =>
                                        rw [h9, except_bind_ok] at hok
                                        obtain ⟨stv, s5⟩ := p
                                        try dsimp only at hok
                                        cases h10 : statusOfName stv with
                                        | error e =>
                                            rw [h10, except_bind_err] at hok; cases hok
                                        | ok status =>
                                            rw [h10, except_bind_ok] at hok
                                            try dsimp only at hok
                                            cases h11 : popItem s5 "auto_approve" with
                                            | error e =>
                                                rw [h11, except_bind_err] at hok; cases hok
                                            | ok p =>
                                                rw [h11, except_bind_ok] at hok
                                                obtain ⟨aa, s6⟩ := p
                                                try dsimp only at hok
                                                cases h12 : popItem s6 "ctime" with
                                                | error e =>
                                                    rw [h12, except_bind_err] at hok
                                                    cases hok
                                                | ok p =>
                                                    rw [h12, except_bind_ok] at hok
                                                    obtain ⟨ct, s7⟩ := p
                                                    try dsimp only at hok
                                                    cases h13 : pyFloat ct with
                                                    | error e =>
                                                        rw [h13, except_bind_err] at hok
                                                        cases hok
                                                    | ok ctime =>
                                                        rw [h13, except_bind_ok] at hok
                                                        try dsimp only at hok
                                                        have hauto := job_init_auto_approve hok
                                                        obtain ⟨hlaa, _⟩ := popItem_ok h11
                                                        obtain ⟨_, hs5⟩ := popItem_ok h9
                                                        obtain ⟨_, hs4⟩ := popItem_ok h7
                                                        obtain ⟨_, hs3⟩ := popItem_ok h5
                                                        obtain ⟨_, hs2⟩ := popItem_ok h3
                                                        obtain ⟨_, hs1⟩ := popItem_ok h1
                                                        rw [hs5, hs4, hs3, hs2, hs1] at hlaa
                                                        rw [lookup_eraseP_ne _ _ _ (by decide),
                                                            lookup_eraseP_ne _ _ _ (by decide),
                                                            lookup_eraseP_ne _ _ _ (by decide),
                                                            lookup_eraseP_ne _ _ _ (by decide),
                                                            lookup_eraseP_ne _ _ _ (by decide),
                                                            hv] at hlaa
                                                        rw [hauto, Option.some.inj hlaa]
  · intro s
    constructor
    · intro h hs
      rw [hs] at h
      cases h
    · intro h
      rw [pyBool]
      simpa using h
  · intro w
    cases w with
    | null => simp [pyBool]
    | bool b => cases b <;> simp [pyBool]
    | int n => simp [pyBool]
    | str s => simp [pyBool]
    | arr xs => cases xs <;> simp [pyBool]
    | obj kvs => cases kvs <;> simp [pyBool]

/-- A concrete well-formed job element whose `auto_approve` arrives as the
string `"0"`. -/
def jobItem : List (String × WVal) :=
  [("job_id", .int 42), ("credits", .str "1.5"), ("eta", .int 3600),
   ("order_id", .int 8217), ("currency", .str "USD"), ("ctime", .int 1500),
   ("status", .str "available"), ("slug", .str "s"), ("body_src", .str "b"),
   ("lc_src", .str "en"), ("lc_tgt", .str "ja"), ("tier", .str "standard"),
   ("auto_approve", .str "0"), ("callback_url", .str "cb"),
   ("unit_count", .int 1), ("position", .int 0)]

/-- The record `jobItem` decodes to. -/
def jobDecoded : Response.Job :=
  { job_id := .int 42, credits := .str "1.5", eta := .int 3600,
    order_id := .int 8217, currency := .USD, ctime := ⟨1500, 0⟩,
    status := .available, slug := .str "s", body_src := .str "b",
    body_tgt := none, lc_src := .en, lc_tgt := .ja, tier := .standard,
    auto_approve := true, callback_url := .str "cb", custom_data := none,
    unit_count := .int 1, position := .int 0 }

theorem auto_approve_truthiness_witness :
    (List.lookup "auto_approve" jobItem = some (.str "0"))
    ∧ jobDecoded.auto_approve = pyBool (.str "0") :=
  ⟨rfl, (auto_approve_truthiness jobItem (.str "0") jobDecoded rfl (by rfl)).1⟩

end Langedge
